import Mathlib

/-!
Verification of the SQL-to-Typesense translator and execution engine of
`src/utils/tscli.py`.

The development shallowly embeds the core of the program:
* `transpileWhere` embeds `TypesenseCLI._transpile_where` (lines 478-533);
* `collectFields`, `buildProjection`, `pyInt`, `buildQuery` embed the query
  building part of `TypesenseCLI.execute_sql` (lines 330-392);
* `rewriteScan` / `rewriteFilter` embed the
  `re.sub(r'([\w_]+):!=null', r'\1:>= -2000000000', filter)` rewrite
  (lines 434-437);
* `executeQuery` embeds the request / error-classification / bounded-retry
  logic of `execute_sql` (lines 396-449) together with the retry helper
  `execute_sql_params` (lines 451-476), with the search service abstracted
  as a function from requests to either a response or an error message,
  and the list of issued requests made explicit;
* `project` / `renderHits` embed the result rendering (lines 400-424).
-/

namespace TsCli

/-- Comparison operators recognised by `_transpile_where`
(sqlglot node classes `exp.EQ`, `exp.NEQ`, `exp.GT`, `exp.GTE`,
`exp.LT`, `exp.LTE`, `exp.Like`). -/
inductive CompOp where
  | EQ | NEQ | GT | GTE | LT | LTE | LIKE
deriving DecidableEq, Repr

/-- Boolean connectives recognised by `_transpile_where`
(sqlglot node classes `exp.And`, `exp.Or`). -/
inductive LogOp where
  | AND | OR
deriving DecidableEq, Repr

/-- WHERE-clause expression tree, mirroring the sqlglot node shapes that
`_transpile_where` dispatches on.  `comparison op f v` is a binary
comparison with column name `f` (`node.left.name` / `node.this.name`) and
literal text `v` (`node.right.name` / `node.expression.this`);
`nullCheck f false` is `Is(f, Null)` (from `f IS NULL`) and
`nullCheck f true` is `Not(Is(f, Null))` (from `f IS NOT NULL`);
`notOther e` is an `exp.Not` whose child is not an `IS NULL` node; and
`unsupported` is any other node shape, which reaches the final
`raise ValueError` of `_transpile_where`. -/
inductive Expression where
  | comparison (op : CompOp) (field lit : String)
  | logical (op : LogOp) (left right : Expression)
  | nullCheck (field : String) (negated : Bool)
  | notOther (inner : Expression)
  | unsupported
deriving DecidableEq, Repr

/-- Embedding of `TypesenseCLI._transpile_where` (src/utils/tscli.py,
lines 478-533).  The Python function raises `ValueError` on unsupported
node shapes; that is modelled as `none`.  The Python f-string for a
logical node evaluates its left part first and propagates an exception
from either part, which is exactly the behaviour of the nested match
below. -/
def transpileWhere : Expression → Option String
  | .logical .AND l r =>
      match transpileWhere l, transpileWhere r with
      | some a, some b => some (a ++ " && " ++ b)
      | _, _ => none
  | .logical .OR l r =>
      match transpileWhere l, transpileWhere r with
      | some a, some b => some (a ++ " || " ++ b)
      | _, _ => none
  | .comparison .EQ f v => some (f ++ ":=" ++ v)
  | .comparison .GT f v => some (f ++ ":>" ++ v)
  | .comparison .LT f v => some (f ++ ":<" ++ v)
  | .comparison .GTE f v => some (f ++ ":>=" ++ v)
  | .comparison .LTE f v => some (f ++ ":<=" ++ v)
  | .comparison .NEQ f v => some (f ++ ":!=" ++ v)
  | .comparison .LIKE f v => some (f ++ ":" ++ v)
  | .nullCheck f false => some (f ++ ":=null")
  | .nullCheck f true => some (f ++ ":!=null")
  | .notOther _ => none
  | .unsupported => none

/-- Shapes of the expressions in a SELECT list, as dispatched by the loop
over `parsed.expressions` in `execute_sql` (lines 344-351): `exp.Star`
sets the star flag and stops the loop, `exp.Column` contributes its name,
and every other shape is skipped. -/
inductive SelectItem where
  | star
  | column (name : String)
  | otherItem
deriving DecidableEq, Repr

/-- Embedding of the `include_fields` / `is_star` loop of `execute_sql`
(lines 342-351): walk the select list, appending each column name, until
a star is met (which sets the flag and breaks, keeping the names already
collected). -/
def collectFieldsAux (acc : List String) : List SelectItem → List String × Bool
  | [] => (acc, false)
  | .star :: _ => (acc, true)
  | .column n :: rest => collectFieldsAux (acc ++ [n]) rest
  | .otherItem :: rest => collectFieldsAux acc rest

/-- The `(include_fields, is_star)` pair computed by `execute_sql` for a
select list. -/
def collectFields (items : List SelectItem) : List String × Bool :=
  collectFieldsAux [] items

/-- The projection actually requested: `execute_sql` line 359 sets
`include_fields` only when `not is_star and include_fields`. -/
def buildProjection (items : List SelectItem) : Option (List String) :=
  let p := collectFields items
  if p.2 = false ∧ p.1 ≠ [] then some p.1 else none

/-- The column names referenced by a select list, in source order; used to
state what `collectFields` computes. -/
def selName : SelectItem → Option String
  | .column n => some n
  | _ => none

/-- Whitespace as stripped by Python `int(...)` on a string argument. -/
def isSpaceChar (c : Char) : Bool :=
  c == ' ' || c == '\t' || c == '\n' || c == '\r'

/-- Value of a digit string, most significant digit first. -/
def digitsVal (l : List Char) : Nat :=
  l.foldl (fun acc c => acc * 10 + (c.toNat - 48)) 0

/-- Embedding of Python `int(...)` applied to a string, as used on
`limit.expression.this` in `execute_sql` line 390: strip surrounding
whitespace, accept an optional sign followed by a non-empty digit run,
and fail on anything else (digit-group underscores are not modelled; a
non-string limit operand, on which `int` also raises, is modelled as an
unparseable token). -/
def pyInt (s : String) : Option Int :=
  let t := ((s.toList.dropWhile isSpaceChar).reverse.dropWhile isSpaceChar).reverse
  match t with
  | [] => none
  | c :: rest =>
    let p : Bool × List Char :=
      if c == '-' then (true, rest)
      else if c == '+' then (false, rest)
      else (false, c :: rest)
    if p.2 ≠ [] ∧ p.2.all (·.isDigit) then
      some (if p.1 then -(digitsVal p.2 : Int) else (digitsVal p.2 : Int))
    else none

/-- The structured request sent to the search service: the
`query_params` dictionary of `execute_sql` (lines 353-392) together with
the target collection. -/
structure QuerySpec where
  collection : String
  q : String
  filterBy : Option String
  sortBy : Option String
  includeFields : Option String
  page : Nat
  perPage : Int
deriving DecidableEq, Repr

/-- The parts of a parsed SELECT statement that `execute_sql` consumes:
the first FROM table if any, the select list, the WHERE tree if any, the
ORDER BY items as (field, is-descending) pairs, and the LIMIT token if
any. -/
structure SelectAst where
  table : Option String
  items : List SelectItem
  whereExpr : Option Expression
  orderBy : List (String × Bool)
  limitTok : Option String
deriving DecidableEq, Repr

/-- Embedding of the WHERE handling of `execute_sql` (lines 365-373): no
WHERE clause means no filter; a translated filter is installed only when
non-empty (`if ts_filter:`); a `ValueError` from the translator aborts
the statement. -/
def transFilter : Option Expression → Except String (Option String)
  | none => .ok none
  | some e =>
    match transpileWhere e with
    | some s => .ok (if s = "" then none else some s)
    | none => .error "Unsupported WHERE clause operator"

/-- Embedding of the ORDER BY loop of `execute_sql` (lines 376-384):
each item becomes `field:desc` or `field:asc`. -/
def sortParts (orderBy : List (String × Bool)) : List String :=
  orderBy.map fun p => p.1 ++ ":" ++ (if p.2 then "desc" else "asc")

/-- Python `",".join(...)`. -/
def joinComma : List String → String
  | [] => ""
  | s :: rest => rest.foldl (fun acc t => acc ++ "," ++ t) s

/-- The `per_page` value of the built request (`execute_sql` lines
387-392): the parsed LIMIT value when it parses, otherwise the default
10 (the bare `except: pass` keeps the default silently). -/
def perPageOf (limitTok : Option String) : Int :=
  match limitTok with
  | none => 10
  | some s =>
    match pyInt s with
    | some n => n
    | none => 10

/-- The request record that `execute_sql` assembles once the collection
and the filter are resolved (lines 353-392): constant wildcard text
query, page 1, sort string only when ORDER BY items exist, projection
only when explicit non-star columns exist. -/
def assembleSpec (c : String) (fil : Option String) (ast : SelectAst) : QuerySpec :=
  { collection := c
    q := "*"
    filterBy := fil
    sortBy := if ast.orderBy = [] then none
              else some (joinComma (sortParts ast.orderBy))
    includeFields := (buildProjection ast.items).map joinComma
    page := 1
    perPage := perPageOf ast.limitTok }

/-- Embedding of the query-building part of `execute_sql` (lines
330-392): resolve the collection (first FROM table, else the connected
default, else fail), collect the projection, translate the WHERE clause,
assemble sort, page and per-page. -/
def buildQuery (cur : Option String) (ast : SelectAst) : Except String QuerySpec :=
  match (match ast.table with | some t => some t | none => cur) with
  | none => .error "No collection specified."
  | some c =>
    match transFilter ast.whereExpr with
    | .error m => .error m
    | .ok fil => .ok (assembleSpec c fil ast)

/-- Document field values as they appear in a search hit; `pyStr` gives
the uniform `str(...)` conversion applied when rendering rows. -/
inductive Value where
  | str (s : String)
  | int (n : Int)
  | bool (b : Bool)
  | null
deriving DecidableEq, Repr

/-- Python `str(...)` on a document field value. -/
def pyStr : Value → String
  | .str s => s
  | .int n => toString n
  | .bool true => "True"
  | .bool false => "False"
  | .null => "None"

/-- A document: an insertion-ordered mapping from field names to values
(`hit['document']` in the code). -/
abbrev Doc := List (String × Value)

/-- The response shape of a successful search call: documents, total
found count and elapsed milliseconds. -/
structure SearchResponse where
  hits : List Doc
  found : Nat
  searchTimeMs : Nat
deriving DecidableEq, Repr

/-- Embedding of `str(doc.get(col, ''))` (lines 420 and 472): a missing
field renders as the empty string, a present field through `pyStr`. -/
def renderField (doc : Doc) (c : String) : String :=
  match doc.lookup c with
  | some v => pyStr v
  | none => ""

/-- Embedding of the column-choice and row-building logic of
`execute_sql` (lines 410-421) and `execute_sql_params` (lines 463-473):
explicitly requested fields are the columns when present and no star was
selected, otherwise the key order of the first document; every hit
becomes a row of rendered fields.  An empty hit list yields empty
columns and empty rows. -/
def project (includeFields : List String) (isStar : Bool) (hits : List Doc) :
    List String × List (List String) :=
  match hits with
  | [] => ([], [])
  | first :: rest =>
    let cols := if includeFields ≠ [] ∧ isStar = false then includeFields
                else first.map Prod.fst
    (cols, (first :: rest).map fun doc => cols.map (renderField doc))

/-- Outcome of running one statement against the service, as surfaced by
`execute_sql`: a rendered table, the distinct "No results found." path
for an empty hit list, the terminal failure after a failed retry, the
clarifying null-comparison message, or a verbatim query error. -/
inductive RunResult where
  | table (cols : List String) (rows : List (List String)) (found : Nat) (timeMs : Nat)
  | noResults
  | retryFailed (msg : String)
  | nullComparisonUnsupported
  | queryError (msg : String)
deriving DecidableEq, Repr

/-- Embedding of the success-path rendering shared by `execute_sql`
(lines 400-424) and `execute_sql_params` (lines 456-476): empty hits
print "No results found." and stop; otherwise the projected table is
shown. -/
def renderHits (includeFields : List String) (isStar : Bool) (r : SearchResponse) :
    RunResult :=
  match r.hits with
  | [] => .noResults
  | _ :: _ =>
    let p := project includeFields isStar r.hits
    .table p.1 p.2 r.found r.searchTimeMs

/-- Embedding of the Python substring test `needle in hay` used on error
messages and filters (lines 429 and 445). -/
def infixCheck (n : List Char) : List Char → Bool
  | [] => n.isPrefixOf []
  | c :: t => n.isPrefixOf (c :: t) || infixCheck n (t)

/-- Substring containment on strings, Python `needle in hay`. -/
def containsSub (needle hay : String) : Bool :=
  infixCheck needle.toList hay.toList

/-- Signature A (line 429): the error text contains the
numeric-type-mismatch indicator "Not an int32" and the filter contains
"!=null". -/
def sigA (msg fil : String) : Bool :=
  containsSub "Not an int32" msg && containsSub "!=null" fil

/-- Signature B (line 445): the error text contains the
invalid-comparator indicator and the filter contains ":=null". -/
def sigB (msg fil : String) : Bool :=
  containsSub "invalid comparator" msg && containsSub ":=null" fil

/-- Word characters of the regex class `[\w_]` (ASCII range, as produced
by SQL identifiers). -/
def isWordChar (c : Char) : Bool := c.isAlphanum || c == '_'

/-- Fuel-indexed scanner for the substitution
`re.sub(r'([\w_]+):!=null', r'\1:>= -2000000000', s)` of line 436:
scan left to right; a maximal non-empty run of word characters
immediately followed by ":!=null" is a match, whose replacement keeps
the captured run and rewrites the rest to ":>= -2000000000"; scanning
resumes after the match.  The fuel only forces structural recursion and
is irrelevant above the input length. -/
def rwFuel : Nat → List Char → List Char
  | 0, l => l
  | _ + 1, [] => []
  | fuel + 1, c :: rest =>
    if isWordChar c then
      if (":!=null".toList).isPrefixOf (rest.dropWhile isWordChar) then
        c :: rest.takeWhile isWordChar ++ ((":>= -2000000000".toList)
          ++ rwFuel fuel ((rest.dropWhile isWordChar).drop 7))
      else
        c :: rest.takeWhile isWordChar ++ rwFuel fuel (rest.dropWhile isWordChar)
    else
      c :: rwFuel fuel rest

/-- The regex substitution of line 436 on a character list. -/
def rewriteScan (l : List Char) : List Char :=
  rwFuel (l.length + 1) l

/-- The regex substitution of line 436 on the filter string. -/
def rewriteFilter (s : String) : String :=
  (rewriteScan s.toList).asString

/-- Embedding of the execution and fallback logic of `execute_sql`
(lines 396-449) with `execute_sql_params` (lines 451-476).  The search
service is a function from a request to a response or an error message;
the second component lists every request issued, in order.  On an error:
Signature A first (rewrite the filter, retry once, any second failure is
terminal "Retry Failed"); then Signature B (clarifying message, no
retry); otherwise the error is passed through verbatim. -/
def executeQuery (svc : QuerySpec → Except String SearchResponse)
    (spec : QuerySpec) (includeFields : List String) (isStar : Bool) :
    RunResult × List QuerySpec :=
  match svc spec with
  | .ok r => (renderHits includeFields isStar r, [spec])
  | .error msg =>
    let fb := spec.filterBy.getD ""
    if sigA msg fb then
      let spec2 := { spec with filterBy := some (rewriteFilter fb) }
      match svc spec2 with
      | .ok r => (renderHits includeFields isStar r, [spec, spec2])
      | .error msg2 => (.retryFailed msg2, [spec, spec2])
    else if sigB msg fb then
      (.nullComparisonUnsupported, [spec])
    else
      (.queryError msg, [spec])

/-- Specification-side description of the Signature-A rewrite: the
translation of the WHERE tree with every IS NOT NULL atom emitted as
the numeric-range heuristic `field:>= -2000000000` instead of
`field:!=null`, everything else unchanged.  The statement that the
regex substitution of line 436 rewrites every `field:!=null` fragment
and nothing else is phrased as: on well-formed translator outputs,
`rewriteFilter` agrees with this translation. -/
def transpileRw : Expression → Option String
  | .logical .AND l r =>
      match transpileRw l, transpileRw r with
      | some a, some b => some (a ++ " && " ++ b)
      | _, _ => none
  | .logical .OR l r =>
      match transpileRw l, transpileRw r with
      | some a, some b => some (a ++ " || " ++ b)
      | _, _ => none
  | .comparison .EQ f v => some (f ++ ":=" ++ v)
  | .comparison .GT f v => some (f ++ ":>" ++ v)
  | .comparison .LT f v => some (f ++ ":<" ++ v)
  | .comparison .GTE f v => some (f ++ ":>=" ++ v)
  | .comparison .LTE f v => some (f ++ ":<=" ++ v)
  | .comparison .NEQ f v => some (f ++ ":!=" ++ v)
  | .comparison .LIKE f v => some (f ++ ":" ++ v)
  | .nullCheck f false => some (f ++ ":=null")
  | .nullCheck f true => some (f ++ ":>= -2000000000")
  | .notOther _ => none
  | .unsupported => none

/-- Well-formedness of a WHERE tree as produced from real SQL: field
names are non-empty identifier runs, literals are identifier runs, and
a NEQ literal does not itself begin with "null" (otherwise the fragment
`f:!=nullX` would textually overlap the regex of line 436, a shape no
SQL input produces). -/
def wellFormedExpr : Expression → Prop
  | .comparison op f v =>
      f ≠ "" ∧ f.toList.all isWordChar = true ∧ v.toList.all isWordChar = true ∧
        (op = .NEQ → ("null".toList).isPrefixOf v.toList = false)
  | .logical _ l r => wellFormedExpr l ∧ wellFormedExpr r
  | .nullCheck f _ => f ≠ "" ∧ f.toList.all isWordChar = true
  | .notOther _ => True
  | .unsupported => True

/-- A service that always reports the numeric-type mismatch, used for
spot checks of the retry path. -/
def svcAlwaysMismatch : QuerySpec → Except String SearchResponse :=
  fun _ => .error "Value stored is Not an int32"

/-- A service that always reports an invalid comparator, used for spot
checks of the Signature-B path. -/
def svcInvalidCmp : QuerySpec → Except String SearchResponse :=
  fun _ => .error "400: invalid comparator"

/-- A service whose error text carries both signature indicators at
once, used for the precedence counterexample and spot check. -/
def cexSvcBoth : QuerySpec → Except String SearchResponse :=
  fun _ => .error "Not an int32: invalid comparator"

/-- A request whose filter holds an `IS NOT NULL` fragment. -/
def specNotNull : QuerySpec :=
  { collection := "items"
    q := "*"
    filterBy := some "age:!=null"
    sortBy := none
    includeFields := none
    page := 1
    perPage := 10 }

/-- A request whose filter holds an `IS NULL` fragment. -/
def specEqNull : QuerySpec :=
  { collection := "items"
    q := "*"
    filterBy := some "b:=null"
    sortBy := none
    includeFields := none
    page := 1
    perPage := 10 }

/-- A request whose filter holds both a `field:!=null` and a
`field:=null` fragment. -/
def cexSpecBoth : QuerySpec :=
  { collection := "items"
    q := "*"
    filterBy := some "a:!=null && b:=null"
    sortBy := none
    includeFields := none
    page := 1
    perPage := 10 }

/-- Sample statement `SELECT name FROM users LIMIT abc`, used for spot
checks. -/
def sampleAstAbc : SelectAst :=
  { table := some "users"
    items := [SelectItem.column "name"]
    whereExpr := none
    orderBy := []
    limitTok := some "abc" }

/-- Sample statement `SELECT name FROM users LIMIT 5`, used for spot
checks. -/
def sampleAstFive : SelectAst :=
  { table := some "users"
    items := [SelectItem.column "name"]
    whereExpr := none
    orderBy := []
    limitTok := some "5" }

/-- The request built for `sampleAstAbc` (unparseable LIMIT keeps the
default `per_page` of 10). -/
def sampleSpecTen : QuerySpec :=
  { collection := "users"
    q := "*"
    filterBy := none
    sortBy := none
    includeFields := some "name"
    page := 1
    perPage := 10 }

/-- The request built for `sampleAstFive`. -/
def sampleSpecFive : QuerySpec :=
  { collection := "users"
    q := "*"
    filterBy := none
    sortBy := none
    includeFields := some "name"
    page := 1
    perPage := 5 }

/-- C3: `translate` maps `Comparison(EQ, f, v)` to `f:=v`,
`Comparison(NEQ, f, v)` to `f:!=v`, the ordered comparisons to `f`, `:`,
the operator symbol and `v`, `Comparison(LIKE, f, v)` to `f:v` with `v`
verbatim, `NullCheck(f, false)` to `f:=null` and `NullCheck(f, true)`
to `f:!=null`. -/
theorem transpileWhere_atoms :
    ∀ f v : String,
      transpileWhere (.comparison .EQ f v) = some (f ++ ":=" ++ v) ∧
      transpileWhere (.comparison .NEQ f v) = some (f ++ ":!=" ++ v) ∧
      transpileWhere (.comparison .GT f v) = some (f ++ ":>" ++ v) ∧
      transpileWhere (.comparison .GTE f v) = some (f ++ ":>=" ++ v) ∧
      transpileWhere (.comparison .LT f v) = some (f ++ ":<" ++ v) ∧
      transpileWhere (.comparison .LTE f v) = some (f ++ ":<=" ++ v) ∧
      transpileWhere (.comparison .LIKE f v) = some (f ++ ":" ++ v) ∧
      transpileWhere (.nullCheck f false) = some (f ++ ":=null") ∧
      transpileWhere (.nullCheck f true) = some (f ++ ":!=null") := by
  intro f v
  exact ⟨rfl, rfl, rfl, rfl, rfl, rfl, rfl, rfl, rfl⟩

/-- C4: on every pair of subtrees on which translation succeeds,
`translate (Logical (AND, L, R))` is `translate L ++ " && " ++ translate R`
and `translate (Logical (OR, L, R))` is
`translate L ++ " || " ++ translate R`, at every nesting depth. -/
theorem transpileWhere_logical :
    ∀ (L R : Expression) (a b : String),
      transpileWhere L = some a → transpileWhere R = some b →
      transpileWhere (.logical .AND L R) = some (a ++ " && " ++ b) ∧
      transpileWhere (.logical .OR L R) = some (a ++ " || " ++ b) := by
  intro L R a b hL hR
  constructor <;> simp [transpileWhere, hL, hR]

/-- Spot check for `transpileWhere_logical` at a concrete nested tree. -/
theorem transpileWhere_logical_spot :
    transpileWhere (.logical .AND (.comparison .EQ "a" "1")
        (.logical .OR (.comparison .GT "b" "2") (.nullCheck "c" true))) =
      some ("a:=1" ++ " && " ++ "b:>2 || c:!=null") ∧
    transpileWhere (.logical .OR (.comparison .EQ "a" "1")
        (.logical .OR (.comparison .GT "b" "2") (.nullCheck "c" true))) =
      some ("a:=1" ++ " || " ++ "b:>2 || c:!=null") :=
  transpileWhere_logical (.comparison .EQ "a" "1")
    (.logical .OR (.comparison .GT "b" "2") (.nullCheck "c" true))
    "a:=1" "b:>2 || c:!=null" rfl rfl

/-- C5: any node shape outside the supported set — in particular a
general NOT that does not wrap an IS NULL — makes translation fail, and
a failing child of a Logical node makes the whole translation fail: a
partial filter string is never returned. -/
theorem transpileWhere_unsupported :
    (∀ e, transpileWhere (.notOther e) = none) ∧
    transpileWhere .unsupported = none ∧
    (∀ (op : LogOp) (L R : Expression),
      transpileWhere L = none ∨ transpileWhere R = none →
      transpileWhere (.logical op L R) = none) := by
  refine ⟨fun e => rfl, rfl, fun op L R h => ?_⟩
  cases op <;> rcases h with h | h <;>
    cases hL : transpileWhere L <;> cases hR : transpileWhere R <;>
      simp_all [transpileWhere]

/-- Spot check for `transpileWhere_unsupported`: a Logical node with an
unsupported child translates to nothing. -/
theorem transpileWhere_unsupported_spot :
    transpileWhere (.logical .AND .unsupported (.comparison .EQ "a" "1")) = none ∧
    transpileWhere (.logical .OR (.comparison .EQ "a" "1") (.notOther .unsupported)) = none :=
  ⟨transpileWhere_unsupported.2.2 .AND .unsupported (.comparison .EQ "a" "1") (Or.inl rfl),
   transpileWhere_unsupported.2.2 .OR (.comparison .EQ "a" "1") (.notOther .unsupported)
     (Or.inr rfl)⟩

/-- On a select list without a star, the field loop appends exactly the
referenced column names in source order to the accumulator. -/
theorem collectFieldsAux_no_star (items : List SelectItem) :
    SelectItem.star ∉ items → ∀ acc,
      collectFieldsAux acc items = (acc ++ items.filterMap selName, false) := by
  induction items with
  | nil => intro _ acc; simp [collectFieldsAux]
  | cons i rest ih =>
    intro h acc
    cases i with
    | star => exact absurd (List.mem_cons_self _ _) h
    | column n =>
      have hr : SelectItem.star ∉ rest := fun hm => h (List.mem_cons_of_mem _ hm)
      simp [collectFieldsAux, ih hr, selName, List.filterMap_cons]
    | otherItem =>
      have hr : SelectItem.star ∉ rest := fun hm => h (List.mem_cons_of_mem _ hm)
      simp [collectFieldsAux, ih hr, selName, List.filterMap_cons]

/-- On a select list containing a star, the field loop reports the star
flag. -/
theorem collectFieldsAux_star (items : List SelectItem) :
    SelectItem.star ∈ items → ∀ acc, (collectFieldsAux acc items).2 = true := by
  induction items with
  | nil => intro h; exact absurd h (List.not_mem_nil _)
  | cons i rest ih =>
    intro h acc
    cases i with
    | star => simp [collectFieldsAux]
    | column n =>
      have hr : SelectItem.star ∈ rest := by
        rcases List.mem_cons.mp h with h | h
        · exact absurd h (by simp)
        · exact h
      simp [collectFieldsAux, ih hr]
    | otherItem =>
      have hr : SelectItem.star ∈ rest := by
        rcases List.mem_cons.mp h with h | h
        · exact absurd h (by simp)
        · exact h
      simp [collectFieldsAux, ih hr]

/-- C7 counterexample: the claim says duplicates are removed from the
projection, but the code appends every referenced column name; the list
`SELECT a, a` yields the projection `["a", "a"]`, not the de-duplicated
`["a"]`. -/
theorem buildProjection_dup_cex :
    buildProjection [.column "a", .column "a"] = some ["a", "a"] ∧
    (["a", "a"] : List String) ≠ ["a"] := by
  constructor
  · decide
  · decide

/-- C7 (amended): a select list containing a star gets an absent
projection; a select list without a star keeps the referenced column
names in source order with duplicates retained (and the projection is
absent when no column is referenced). -/
theorem buildProjection_spec :
    (∀ items, SelectItem.star ∈ items → buildProjection items = none) ∧
    (∀ items, SelectItem.star ∉ items →
      (collectFields items).1 = items.filterMap selName ∧
      (collectFields items).2 = false ∧
      (items.filterMap selName ≠ [] →
        buildProjection items = some (items.filterMap selName)) ∧
      (items.filterMap selName = [] → buildProjection items = none)) := by
  constructor
  · intro items h
    have hs := collectFieldsAux_star items h []
    simp [buildProjection, collectFields, hs]
  · intro items h
    have hs := collectFieldsAux_no_star items h []
    refine ⟨by simp [collectFields, hs], by simp [collectFields, hs], ?_, ?_⟩
    · intro hne
      simp [buildProjection, collectFields, hs, hne]
    · intro he
      simp [buildProjection, collectFields, hs, he]

/-- Spot check for `buildProjection_spec` at concrete select lists. -/
theorem buildProjection_spec_spot :
    buildProjection [SelectItem.column "a", SelectItem.star] = none ∧
    buildProjection [SelectItem.column "a", SelectItem.otherItem,
      SelectItem.column "b"] = some ["a", "b"] := by
  constructor
  · exact buildProjection_spec.1 _ (by decide)
  · exact (buildProjection_spec.2
      [SelectItem.column "a", SelectItem.otherItem, SelectItem.column "b"]
      (by decide)).2.2.1 (by decide)

/-- C8: a present LIMIT whose value does not parse as an integer leaves
`perPage` at the default 10 and does not abort the statement; a LIMIT
value that parses as an integer becomes `perPage`.  The last conjunct
shows no choice of LIMIT token can turn a statement that builds into a
failure. -/
theorem buildQuery_limit :
    ∀ cur ast spec, buildQuery cur ast = .ok spec →
      (∀ s, ast.limitTok = some s → pyInt s = none → spec.perPage = 10) ∧
      (∀ s n, ast.limitTok = some s → pyInt s = some n → spec.perPage = n) ∧
      (∀ t, ∃ spec2, buildQuery cur { ast with limitTok := t } = .ok spec2 ∧
        spec2.perPage = perPageOf t) := by
  intro cur ast spec h
  unfold buildQuery at h
  cases hc : (match ast.table with | some t => some t | none => cur) with
  | none => rw [hc] at h; exact absurd h (by simp)
  | some c =>
    rw [hc] at h
    cases hf : transFilter ast.whereExpr with
    | error m => rw [hf] at h; exact absurd h (by simp)
    | ok fil =>
      rw [hf] at h
      have hspec := Except.ok.inj h
      refine ⟨?_, ?_, ?_⟩
      · intro s hs hp
        rw [← hspec]
        simp [assembleSpec, perPageOf, hs, hp]
      · intro s n hs hp
        rw [← hspec]
        simp [assembleSpec, perPageOf, hs, hp]
      · intro t
        refine ⟨assembleSpec c fil { ast with limitTok := t }, ?_, rfl⟩
        show (match (match ast.table with | some u => some u | none => cur) with
          | none => Except.error "No collection specified."
          | some c2 =>
            match transFilter ast.whereExpr with
            | .error m => .error m
            | .ok fil2 => .ok (assembleSpec c2 fil2 { ast with limitTok := t })) = _
        rw [hc, hf]

/-- Spot check for `buildQuery_limit`: `LIMIT abc` keeps the default 10,
`LIMIT 5` sets 5, and an unparseable token never aborts. -/
theorem buildQuery_limit_spot :
    pyInt "abc" = none ∧
    sampleSpecTen.perPage = 10 ∧
    buildQuery none sampleAstAbc = .ok sampleSpecTen ∧
    buildQuery none sampleAstFive = .ok sampleSpecFive := by
  refine ⟨by decide, ?_, by rfl, by rfl⟩
  exact (buildQuery_limit none sampleAstAbc sampleSpecTen (by rfl)).1
    "abc" rfl (by decide)

/-- C9: the Result Projector uses the requested projection as columns
when it is present (non-empty, no star), otherwise the key order of the
first document; rows render a missing field as the empty string and a
present field through the uniform `str` conversion; an empty hit list
yields empty columns and rows and a non-error outcome distinct from
every failure constructor. -/
theorem project_spec :
    (∀ fields isStar, project fields isStar [] = ([], [])) ∧
    (∀ fields isStar d hs, fields ≠ [] → isStar = false →
      (project fields isStar (d :: hs)).1 = fields) ∧
    (∀ fields isStar d hs, fields = [] ∨ isStar = true →
      (project fields isStar (d :: hs)).1 = d.map Prod.fst) ∧
    (∀ fields isStar d hs,
      (project fields isStar (d :: hs)).2 =
        (d :: hs).map fun doc =>
          ((project fields isStar (d :: hs)).1).map (renderField doc)) ∧
    (∀ doc c, doc.lookup c = none → renderField doc c = "") ∧
    (∀ doc c v, doc.lookup c = some v → renderField doc c = pyStr v) ∧
    (∀ fields isStar r, r.hits = [] → renderHits fields isStar r = .noResults) ∧
    (∀ m, RunResult.noResults ≠ .queryError m ∧ RunResult.noResults ≠ .retryFailed m) ∧
    RunResult.noResults ≠ .nullComparisonUnsupported := by
  refine ⟨fun fields isStar => rfl, ?_, ?_, ?_, ?_, ?_, ?_, ?_, by simp⟩
  · intro fields isStar d hs hne hstar
    simp [project, hne, hstar]
  · intro fields isStar d hs h
    rcases h with h | h <;> simp [project, h]
  · intro fields isStar d hs
    by_cases hc : fields ≠ [] ∧ isStar = false <;> simp [project, hc]
  · intro doc c h
    simp [renderField, h]
  · intro doc c v h
    simp [renderField, h]
  · intro fields isStar r h
    obtain ⟨hits, fnd, tms⟩ := r
    simp only at h
    subst h
    rfl
  · intro m
    exact ⟨by simp, by simp⟩

/-- Spot check for `project_spec` at a concrete response. -/
theorem project_spec_spot :
    (project ["name"] false [[("name", Value.str "x"), ("age", Value.int 3)]]).1
      = ["name"] ∧
    renderField [("age", Value.int 3)] "name" = "" ∧
    renderField [("age", Value.int 3)] "age" = pyStr (Value.int 3) ∧
    renderHits ["name"] false { hits := [], found := 0, searchTimeMs := 1 }
      = .noResults := by
  refine ⟨?_, ?_, ?_, ?_⟩
  · exact project_spec.2.1 ["name"] false
      [("name", Value.str "x"), ("age", Value.int 3)] [] (by decide) rfl
  · exact project_spec.2.2.2.2.1 [("age", Value.int 3)] "name" (by rfl)
  · exact project_spec.2.2.2.2.2.1 [("age", Value.int 3)] "age" (Value.int 3) (by rfl)
  · exact project_spec.2.2.2.2.2.2.1 ["name"] false
      { hits := [], found := 0, searchTimeMs := 1 } rfl

/-- A prefix of a list passes the infix scan. -/
theorem infixCheck_of_prefix :
    ∀ (h n : List Char), n <+: h → infixCheck n h = true := by
  intro h
  induction h with
  | nil =>
    intro n hn
    have : n = [] := List.prefix_nil.mp hn
    subst this
    rfl
  | cons c t ih =>
    intro n hn
    simp [infixCheck, List.isPrefixOf_iff_prefix, hn]

/-- The infix scan is monotone under extending the haystack on the
left. -/
theorem infixCheck_tail (n : List Char) (c : Char) (t : List Char)
    (h : infixCheck n t = true) : infixCheck n (c :: t) = true := by
  simp [infixCheck, h]

/-- A list embedded between two others passes the infix scan. -/
theorem infixCheck_decomp (pre n post : List Char) :
    infixCheck n (pre ++ (n ++ post)) = true := by
  induction pre with
  | nil => exact infixCheck_of_prefix _ _ (List.prefix_append n post)
  | cons c p ih => exact infixCheck_tail n c _ ih

/-- String characters distribute over append. -/
theorem toList_append (s t : String) : (s ++ t).toList = s.toList ++ t.toList :=
  String.data_append s t

/-- A substring placed between two others is found by `containsSub`. -/
theorem containsSub_decomp (pre mid post : String) :
    containsSub mid (pre ++ mid ++ post) = true := by
  unfold containsSub
  have h1 : (pre ++ mid ++ post).toList = pre.toList ++ (mid.toList ++ post.toList) := by
    rw [toList_append, toList_append, List.append_assoc]
  rw [h1]
  exact infixCheck_decomp _ _ _

/-- The filter of the claims contains the `field:!=null` fragment, so
the code's coarser substring test for "!=null" fires. -/
theorem containsSub_notNull_frag (a f b : String) :
    containsSub "!=null" (a ++ (f ++ ":!=null") ++ b) = true := by
  have h : a ++ (f ++ ":!=null") ++ b = (a ++ (f ++ ":")) ++ "!=null" ++ b := by
    rw [show (":!=null" : String) = ":" ++ "!=null" from rfl]
    simp [String.append_assoc]
  rw [h]
  exact containsSub_decomp _ _ _

/-- The filter of the claims contains the `field:=null` fragment, so
the code's coarser substring test for ":=null" fires. -/
theorem containsSub_eqNull_frag (c g d : String) :
    containsSub ":=null" (c ++ (g ++ ":=null") ++ d) = true := by
  have h : c ++ (g ++ ":=null") ++ d = (c ++ g) ++ ":=null" ++ d := by
    simp [String.append_assoc]
  rw [h]
  exact containsSub_decomp _ _ _

/-- On a Signature-A first failure the engine issues exactly the
original request and one rewritten retry, and the outcome is never the
Signature-B clarifying failure. -/
theorem executeQuery_sigA_cases
    (svc : QuerySpec → Except String SearchResponse) (spec : QuerySpec)
    (incf : List String) (st : Bool) (msg : String)
    (h1 : svc spec = .error msg)
    (hA : sigA msg (spec.filterBy.getD "") = true) :
    (executeQuery svc spec incf st).2 =
      [spec, { spec with filterBy := some (rewriteFilter (spec.filterBy.getD "")) }] ∧
    (executeQuery svc spec incf st).1 ≠ .nullComparisonUnsupported := by
  unfold executeQuery
  rw [h1]
  simp only [hA, if_true]
  cases h2 : svc { spec with filterBy := some (rewriteFilter (spec.filterBy.getD "")) } with
  | ok r =>
    refine ⟨rfl, ?_⟩
    unfold renderHits
    obtain ⟨hits, fnd, tm⟩ := r
    cases hits <;> simp
  | error m2 => exact ⟨rfl, by simp⟩

/-- C2: two consecutive Signature-A failures produce exactly one filter
rewrite and a terminal failure after the second attempt; exactly two
requests are ever sent, never a third. -/
theorem executeQuery_retry_bounded :
    ∀ (svc : QuerySpec → Except String SearchResponse) (spec : QuerySpec)
      (incf : List String) (st : Bool) (msg1 msg2 : String),
      svc spec = .error msg1 →
      sigA msg1 (spec.filterBy.getD "") = true →
      svc { spec with filterBy := some (rewriteFilter (spec.filterBy.getD "")) } =
        .error msg2 →
      executeQuery svc spec incf st =
        (.retryFailed msg2,
          [spec, { spec with filterBy := some (rewriteFilter (spec.filterBy.getD "")) }]) ∧
      (executeQuery svc spec incf st).2.length = 2 := by
  intro svc spec incf st msg1 msg2 h1 hA h2
  have he : executeQuery svc spec incf st =
      (.retryFailed msg2,
        [spec, { spec with filterBy := some (rewriteFilter (spec.filterBy.getD "")) }]) := by
    unfold executeQuery
    rw [h1]
    simp only [hA, if_true]
    rw [h2]
  exact ⟨he, by rw [he]; rfl⟩

/-- Spot check for `executeQuery_retry_bounded`: a service that always
reports the numeric mismatch makes the engine stop after the second
attempt, with the single rewritten filter. -/
theorem executeQuery_retry_bounded_spot :
    executeQuery svcAlwaysMismatch specNotNull [] true =
      (.retryFailed "Value stored is Not an int32",
        [specNotNull, { specNotNull with filterBy := some "age:>= -2000000000" }]) ∧
    (executeQuery svcAlwaysMismatch specNotNull [] true).2.length = 2 :=
  executeQuery_retry_bounded svcAlwaysMismatch specNotNull [] true
    "Value stored is Not an int32" "Value stored is Not an int32"
    rfl (by decide) rfl

/-- C6 counterexample: an error text matching both signatures over a
filter containing both fragments takes the rewrite-and-retry path, not
the clarifying Signature-B failure, and a retry IS issued. -/
theorem executeQuery_sigB_cex :
    containsSub "invalid comparator" "Not an int32: invalid comparator" = true ∧
    containsSub ":=null" "a:!=null && b:=null" = true ∧
    cexSvcBoth cexSpecBoth = .error "Not an int32: invalid comparator" ∧
    (executeQuery cexSvcBoth cexSpecBoth [] true).1 ≠ .nullComparisonUnsupported ∧
    (executeQuery cexSvcBoth cexSpecBoth [] true).2.length = 2 := by
  refine ⟨by decide, by decide, rfl, by decide, by decide⟩

/-- C6 (amended): when the first failure carries the invalid-comparator
indicator over a filter with a `field:=null` fragment and the
Signature-A test (checked first by the code) does not fire, the engine
returns the clarifying null-comparison failure with no retry: one
request only. -/
theorem executeQuery_sigB :
    ∀ (svc : QuerySpec → Except String SearchResponse) (spec : QuerySpec)
      (incf : List String) (st : Bool) (msg : String) (pre f post : String),
      svc spec = .error msg →
      containsSub "invalid comparator" msg = true →
      spec.filterBy = some (pre ++ (f ++ ":=null") ++ post) →
      sigA msg (spec.filterBy.getD "") = false →
      executeQuery svc spec incf st = (.nullComparisonUnsupported, [spec]) := by
  intro svc spec incf st msg pre f post h1 hI hfb hA
  have hgd : spec.filterBy.getD "" = pre ++ (f ++ ":=null") ++ post := by
    rw [hfb]; rfl
  have hfrag : containsSub ":=null" (spec.filterBy.getD "") = true := by
    rw [hgd]
    have h : pre ++ (f ++ ":=null") ++ post = (pre ++ f) ++ ":=null" ++ post := by
      simp [String.append_assoc]
    rw [h]
    exact containsSub_decomp _ _ _
  have hB : sigB msg (spec.filterBy.getD "") = true := by
    simp [sigB, hI, hfrag]
  unfold executeQuery
  rw [h1]
  simp only [hA, hB, if_true, if_false, Bool.false_eq_true]

/-- Spot check for `executeQuery_sigB`: an invalid-comparator failure
over the filter `b:=null` yields the clarifying outcome after a single
request. -/
theorem executeQuery_sigB_spot :
    executeQuery svcInvalidCmp specEqNull [] true =
      (.nullComparisonUnsupported, [specEqNull]) :=
  executeQuery_sigB svcInvalidCmp specEqNull [] true "400: invalid comparator"
    "" "b" "" rfl (by decide) rfl (by decide)

/-- C10: a single error matching both signature indicators over a
filter carrying both a `field:!=null` and a `field:=null` fragment
takes the Signature-A rewrite-and-retry path — two requests, the second
with the rewritten filter — and never the Signature-B clarifying
failure, because the numeric-mismatch check comes first in the code. -/
theorem executeQuery_overlap :
    ∀ (svc : QuerySpec → Except String SearchResponse) (spec : QuerySpec)
      (incf : List String) (st : Bool) (msg : String) (a f b c g d : String),
      svc spec = .error msg →
      containsSub "Not an int32" msg = true →
      containsSub "invalid comparator" msg = true →
      spec.filterBy = some (a ++ (f ++ ":!=null") ++ b) →
      a ++ (f ++ ":!=null") ++ b = c ++ (g ++ ":=null") ++ d →
      (executeQuery svc spec incf st).2 =
        [spec,
          { spec with filterBy := some (rewriteFilter (a ++ (f ++ ":!=null") ++ b)) }] ∧
      (executeQuery svc spec incf st).1 ≠ .nullComparisonUnsupported := by
  intro svc spec incf st msg a f b c g d h1 hN hI hfb heq
  have hgd : spec.filterBy.getD "" = a ++ (f ++ ":!=null") ++ b := by
    rw [hfb]; rfl
  have hA : sigA msg (spec.filterBy.getD "") = true := by
    rw [hgd]
    simp [sigA, hN, containsSub_notNull_frag]
  have h := executeQuery_sigA_cases svc spec incf st msg h1 hA
  rw [hgd] at h
  exact h

/-- Spot check for `executeQuery_overlap` on the double-signature error
and a filter with both fragments. -/
theorem executeQuery_overlap_spot :
    (executeQuery cexSvcBoth cexSpecBoth [] true).2 =
      [cexSpecBoth,
        { cexSpecBoth with
            filterBy := some (rewriteFilter ("" ++ ("a" ++ ":!=null") ++ " && b:=null")) }] ∧
    (executeQuery cexSvcBoth cexSpecBoth [] true).1 ≠ .nullComparisonUnsupported :=
  executeQuery_overlap cexSvcBoth cexSpecBoth [] true
    "Not an int32: invalid comparator" "" "a" " && b:=null" "a:!=null && " "b" ""
    rfl (by decide) (by decide) rfl (by decide)

/-- The dropped-while list is no longer than the original. -/
theorem length_dropWhile_le (p : Char → Bool) (l : List Char) :
    (l.dropWhile p).length ≤ l.length := by
  induction l with
  | nil => simp
  | cons a t ih =>
    rw [List.dropWhile_cons]
    by_cases h : p a = true
    · simp only [h, if_true]
      exact Nat.le_trans ih (Nat.le_succ _)
    · simp only [h, if_false]
      exact Nat.le_refl _

/-- The fuel of the substitution scanner is irrelevant above the input
length. -/
theorem rwFuel_eq : ∀ (f1 : Nat) (l : List Char) (f2 : Nat),
    l.length < f1 → l.length < f2 → rwFuel f1 l = rwFuel f2 l := by
  intro f1
  induction f1 with
  | zero => intro l f2 h1 _; exact absurd h1 (Nat.not_lt_zero _)
  | succ fn ih =>
    intro l f2 h1 h2
    cases f2 with
    | zero => exact absurd h2 (Nat.not_lt_zero _)
    | succ g =>
      cases l with
      | nil => rfl
      | cons ch rest =>
        have hr1 : rest.length < fn := by
          simpa [Nat.succ_lt_succ_iff] using h1
        have hr2 : rest.length < g := by
          simpa [Nat.succ_lt_succ_iff] using h2
        have hdw : (rest.dropWhile isWordChar).length ≤ rest.length :=
          length_dropWhile_le _ _
        simp only [rwFuel]
        by_cases hw : isWordChar ch = true
        · rw [if_pos hw, if_pos hw]
          by_cases hp : ((":!=null".toList).isPrefixOf (rest.dropWhile isWordChar)) = true
          · rw [if_pos hp, if_pos hp]
            have hd7 : ((rest.dropWhile isWordChar).drop 7).length ≤ rest.length := by
              have := List.length_drop 7 (rest.dropWhile isWordChar)
              omega
            rw [ih _ g (Nat.lt_of_le_of_lt hd7 hr1) (Nat.lt_of_le_of_lt hd7 hr2)]
          · rw [if_neg hp, if_neg hp]
            rw [ih _ g (Nat.lt_of_le_of_lt hdw hr1) (Nat.lt_of_le_of_lt hdw hr2)]
        · rw [if_neg hw, if_neg hw]
          rw [ih _ g hr1 hr2]

/-- The scanner leaves the empty list unchanged. -/
theorem rewriteScan_nil : rewriteScan [] = [] := rfl

/-- The scanner copies a non-word character and continues. -/
theorem rewriteScan_cons_nonword (ch : Char) (l : List Char)
    (h : isWordChar ch = false) :
    rewriteScan (ch :: l) = ch :: rewriteScan l := by
  show rwFuel ((ch :: l).length + 1) (ch :: l) = ch :: rwFuel (l.length + 1) l
  simp only [List.length_cons]
  simp only [rwFuel]
  rw [if_neg (by simp [h])]

/-- A list starting with a non-word character (or empty) is untouched by
`takeWhile` / `dropWhile` over word characters. -/
theorem boundary_take_drop (rem : List Char)
    (hb : rem = [] ∨ ∃ ch t, rem = ch :: t ∧ isWordChar ch = false) :
    rem.takeWhile isWordChar = [] ∧ rem.dropWhile isWordChar = rem := by
  rcases hb with rfl | ⟨ch, t, rfl, hc⟩
  · simp
  · rw [List.takeWhile_cons, List.dropWhile_cons]
    simp [hc]

/-- Key step: the scanner consumes a maximal non-empty word run whole;
when ":!=null" follows it rewrites, otherwise it copies the run. -/
theorem rewriteScan_run (run rem : List Char) (hne : run ≠ [])
    (hw : ∀ x ∈ run, isWordChar x = true)
    (hb : rem.takeWhile isWordChar = [] ∧ rem.dropWhile isWordChar = rem) :
    rewriteScan (run ++ rem) =
      if (":!=null".toList).isPrefixOf rem then
        run ++ ((":>= -2000000000".toList) ++ rewriteScan (rem.drop 7))
      else run ++ rewriteScan rem := by
  obtain ⟨r, rs, rfl⟩ : ∃ r rs, run = r :: rs := by
    cases run with
    | nil => exact absurd rfl hne
    | cons a b => exact ⟨a, b, rfl⟩
  have hr : isWordChar r = true := hw r (List.mem_cons_self _ _)
  have hrs : ∀ x ∈ rs, isWordChar x = true := fun x hx => hw x (List.mem_cons_of_mem _ hx)
  have htake : (rs ++ rem).takeWhile isWordChar = rs := by
    rw [List.takeWhile_append_of_pos hrs, hb.1, List.append_nil]
  have hdrop : (rs ++ rem).dropWhile isWordChar = rem := by
    rw [List.dropWhile_append_of_pos hrs, hb.2]
  show rwFuel (((r :: rs) ++ rem).length + 1) ((r :: rs) ++ rem) = _
  have hcons : (r :: rs) ++ rem = r :: (rs ++ rem) := rfl
  rw [hcons]
  simp only [List.length_cons, rwFuel]
  rw [if_pos hr, htake, hdrop]
  have hlrem : rem.length < (rs ++ rem).length + 1 := by
    simp [List.length_append]
    omega
  by_cases hp : ((":!=null".toList).isPrefixOf rem) = true
  · rw [if_pos hp, if_pos hp]
    have hl7 : (rem.drop 7).length < (rs ++ rem).length + 1 := by
      have := List.length_drop 7 rem
      simp [List.length_append]
      omega
    rw [rwFuel_eq _ _ ((rem.drop 7).length + 1) hl7 (Nat.lt_succ_self _)]
    show r :: (rs ++ ((":>= -2000000000".toList) ++ rewriteScan (rem.drop 7))) = _
    simp [List.append_assoc]
  · rw [if_neg hp, if_neg hp]
    rw [rwFuel_eq _ _ (rem.length + 1) hlrem (Nat.lt_succ_self _)]
    show r :: (rs ++ rewriteScan rem) = _
    simp

/-- The scanner copies a block of non-word characters and continues. -/
theorem rewriteScan_nonword_all (pre l : List Char)
    (h : ∀ ch ∈ pre, isWordChar ch = false) :
    rewriteScan (pre ++ l) = pre ++ rewriteScan l := by
  induction pre with
  | nil => simp
  | cons ch p ih =>
    have hc : isWordChar ch = false := h ch (List.mem_cons_self _ _)
    have hp : ∀ x ∈ p, isWordChar x = false := fun x hx => h x (List.mem_cons_of_mem _ hx)
    calc rewriteScan ((ch :: p) ++ l) = rewriteScan (ch :: (p ++ l)) := rfl
      _ = ch :: rewriteScan (p ++ l) := rewriteScan_cons_nonword ch _ hc
      _ = ch :: (p ++ rewriteScan l) := by rw [ih hp]
      _ = (ch :: p) ++ rewriteScan l := rfl

/-- A list is a Boolean prefix of itself extended on the right. -/
theorem isPrefixOf_append_self (l t : List Char) : l.isPrefixOf (l ++ t) = true :=
  List.isPrefixOf_iff_prefix.mpr (List.prefix_append l t)

/-- A non-empty string is the empty string when its character list is
empty. -/
theorem toList_eq_nil (s : String) (h : s.toList = []) : s = "" :=
  String.ext h

/-- The pattern ":!=null" does not start at a position followed by a
character other than the bang. -/
theorem notPrefix_colon_ne (y : Char) (ys : List Char) (h : (('!' : Char) == y) = false) :
    (":!=null".toList).isPrefixOf (':' :: y :: ys) = false := by
  have hl : ":!=null".toList = ':' :: '!' :: '=' :: 'n' :: 'u' :: 'l' :: 'l' :: [] := rfl
  rw [hl, List.isPrefixOf_cons₂, List.isPrefixOf_cons₂]
  simp [h]

/-- A word character is never the bang. -/
theorem bang_word_false (c : Char) (h : isWordChar c = true) : (('!' : Char) == c) = false := by
  cases hq : (('!' : Char) == c) with
  | false => rfl
  | true =>
    have hc : '!' = c := eq_of_beq hq
    rw [← hc] at h
    exact absurd h (by decide)

/-- The pattern ":!=null" never starts on a boundary followed by a word
run and a space-or-end remainder (LIKE-shaped atoms). -/
theorem notPrefix_like (vL rest : List Char)
    (hv : ∀ x ∈ vL, isWordChar x = true)
    (hrest : rest = [] ∨ ∃ t, rest = ' ' :: t) :
    (":!=null".toList).isPrefixOf (':' :: (vL ++ rest)) = false := by
  cases vL with
  | cons c cs =>
    exact notPrefix_colon_ne c _ (bang_word_false c (hv c (List.mem_cons_self _ _)))
  | nil =>
    simp only [List.nil_append]
    rcases hrest with rfl | ⟨t, rfl⟩
    · have hl : ":!=null".toList = ':' :: ("!=null".toList) := rfl
      rw [hl, List.isPrefixOf_cons₂]
      simp
    · exact notPrefix_colon_ne ' ' t (by decide)

/-- A prefix of an appended list is a prefix of the first part or
extends it into the second. -/
theorem prefix_append_split {l1 l2 l3 : List Char} (h : l1 <+: l2 ++ l3) :
    l1 <+: l2 ∨ ∃ r, l1 = l2 ++ r ∧ r <+: l3 := by
  induction l2 generalizing l1 with
  | nil =>
    right
    exact ⟨l1, rfl, h⟩
  | cons b bs ih =>
    cases l1 with
    | nil =>
      left
      simp
    | cons a as =>
      rcases List.cons_prefix_cons.mp h with ⟨rfl, h2⟩
      rcases ih h2 with h3 | ⟨r, hr, hp⟩
      · left
        exact List.cons_prefix_cons.mpr ⟨rfl, h3⟩
      · right
        exact ⟨r, by rw [hr, List.cons_append], hp⟩

/-- When "null" is not a prefix of a word-run literal, it is not a
prefix of the literal followed by a space-or-end remainder either. -/
theorem null_notPrefix_ext (vL rest : List Char)
    (_hv : ∀ x ∈ vL, isWordChar x = true)
    (hrest : rest = [] ∨ ∃ t, rest = ' ' :: t)
    (h : ("null".toList).isPrefixOf vL = false) :
    ("null".toList).isPrefixOf (vL ++ rest) = false := by
  cases hc : ("null".toList).isPrefixOf (vL ++ rest) with
  | false => rfl
  | true =>
    exfalso
    have hpre : ("null".toList) <+: vL ++ rest := List.isPrefixOf_iff_prefix.mp hc
    rcases prefix_append_split hpre with h1 | ⟨r, hr, hp⟩
    · have h2 := List.isPrefixOf_iff_prefix.mpr h1
      rw [h] at h2
      exact Bool.noConfusion h2
    · cases r with
      | nil =>
        rw [List.append_nil] at hr
        have h1 : ("null".toList) <+: vL := hr ▸ List.prefix_refl _
        have h2 := List.isPrefixOf_iff_prefix.mpr h1
        rw [h] at h2
        exact Bool.noConfusion h2
      | cons x xs =>
        rcases hrest with rfl | ⟨t, rfl⟩
        · exact absurd (List.prefix_nil.mp hp) (by simp)
        · have hx : x = ' ' := (List.cons_prefix_cons.mp hp).1
          subst hx
          have hmem : (' ' : Char) ∈ ("null".toList) := by
            rw [hr]
            exact List.mem_append_right _ (List.mem_cons_self _ _)
          exact absurd hmem (by decide)

/-- The pattern ":!=null" never matches a NEQ atom whose literal does
not itself start with "null". -/
theorem notPrefix_neq (vL rest : List Char)
    (hv : ∀ x ∈ vL, isWordChar x = true)
    (hrest : rest = [] ∨ ∃ t, rest = ' ' :: t)
    (hnull : ("null".toList).isPrefixOf vL = false) :
    (":!=null".toList).isPrefixOf (':' :: '!' :: '=' :: (vL ++ rest)) = false := by
  have hl : ":!=null".toList = ':' :: '!' :: '=' :: ("null".toList) := rfl
  rw [hl, List.isPrefixOf_cons₂, List.isPrefixOf_cons₂, List.isPrefixOf_cons₂]
  have h4 := null_notPrefix_ext vL rest hv hrest hnull
  have hll : "null".toList = ['n', 'u', 'l', 'l'] := rfl
  rw [hll] at h4
  simp [h4]

/-- The pattern ":!=null" never starts on a space-or-end remainder. -/
theorem notPrefix_rest (rest : List Char)
    (hrest : rest = [] ∨ ∃ t, rest = ' ' :: t) :
    (":!=null".toList).isPrefixOf rest = false := by
  rcases hrest with rfl | ⟨t, rfl⟩
  · rfl
  · have hl : ":!=null".toList = ':' :: ("!=null".toList) := rfl
    rw [hl, List.isPrefixOf_cons₂]
    simp

/-- An atom `field ++ separator ++ literal` whose separator does not
start the pattern ":!=null" is copied verbatim by the scanner, which
then continues on the remainder. -/
theorem scan_atom (fL sepL vL rest : List Char)
    (hf : fL ≠ []) (hfw : ∀ x ∈ fL, isWordChar x = true)
    (hsep : sepL ≠ []) (hsepw : ∀ x ∈ sepL, isWordChar x = false)
    (hvw : ∀ x ∈ vL, isWordChar x = true)
    (hrest : rest = [] ∨ ∃ t, rest = ' ' :: t)
    (hnp : (":!=null".toList).isPrefixOf (sepL ++ (vL ++ rest)) = false) :
    rewriteScan (fL ++ (sepL ++ (vL ++ rest))) =
      fL ++ (sepL ++ (vL ++ rewriteScan rest)) := by
  have hbrem : (sepL ++ (vL ++ rest)).takeWhile isWordChar = [] ∧
      (sepL ++ (vL ++ rest)).dropWhile isWordChar = sepL ++ (vL ++ rest) := by
    apply boundary_take_drop
    right
    cases sepL with
    | nil => exact absurd rfl hsep
    | cons c t =>
      exact ⟨c, t ++ (vL ++ rest), rfl, hsepw c (List.mem_cons_self _ _)⟩
  rw [rewriteScan_run fL _ hf hfw hbrem, if_neg (by rw [hnp]; decide)]
  rw [rewriteScan_nonword_all sepL _ hsepw]
  cases vL with
  | nil => rfl
  | cons c cs =>
    have hbrest : rest.takeWhile isWordChar = [] ∧ rest.dropWhile isWordChar = rest := by
      apply boundary_take_drop
      rcases hrest with rfl | ⟨t, rfl⟩
      · left; rfl
      · right; exact ⟨' ', t, rfl, by decide⟩
    rw [rewriteScan_run (c :: cs) rest (by simp) hvw hbrest,
      if_neg (by rw [notPrefix_rest rest hrest]; decide)]

/-- String-level form of `scan_atom` for atoms `f ++ sep ++ v`. -/
theorem scan_atom_str (f sep v : String) (rest : List Char)
    (hf : f ≠ "") (hfw : ∀ x ∈ f.toList, isWordChar x = true)
    (hsep : sep.toList ≠ []) (hsepw : ∀ x ∈ sep.toList, isWordChar x = false)
    (hvw : ∀ x ∈ v.toList, isWordChar x = true)
    (hrest : rest = [] ∨ ∃ t, rest = ' ' :: t)
    (hnp : (":!=null".toList).isPrefixOf (sep.toList ++ (v.toList ++ rest)) = false) :
    rewriteScan ((f ++ sep ++ v).toList ++ rest) =
      (f ++ sep ++ v).toList ++ rewriteScan rest := by
  have hfne : f.toList ≠ [] := fun h0 => hf (toList_eq_nil f h0)
  have h1 : (f ++ sep ++ v).toList ++ rest =
      f.toList ++ (sep.toList ++ (v.toList ++ rest)) := by
    rw [toList_append, toList_append]
    simp [List.append_assoc]
  have h2 : (f ++ sep ++ v).toList ++ rewriteScan rest =
      f.toList ++ (sep.toList ++ (v.toList ++ rewriteScan rest)) := by
    rw [toList_append, toList_append]
    simp [List.append_assoc]
  rw [h1, h2]
  exact scan_atom f.toList sep.toList v.toList rest hfne hfw hsep hsepw hvw hrest hnp

/-- Characterization of the Signature-A regex substitution on
translator output: on a well-formed WHERE tree, rewriting the filter
string equals translating the tree with every IS NOT NULL atom replaced
by the numeric-range heuristic, whatever follows at a fragment
boundary. -/
theorem rewriteScan_transpile : ∀ (e : Expression), wellFormedExpr e →
    ∀ (s s2 : String), transpileWhere e = some s → transpileRw e = some s2 →
    ∀ rest : List Char, (rest = [] ∨ ∃ t, rest = ' ' :: t) →
    rewriteScan (s.toList ++ rest) = s2.toList ++ rewriteScan rest := by
  intro e
  induction e with
  | comparison op f v =>
    intro hwf s s2 hs hs2 rest hrest
    obtain ⟨hf, hfw, hvw, hneq⟩ := hwf
    have hfw' : ∀ x ∈ f.toList, isWordChar x = true := List.all_eq_true.mp hfw
    have hvw' : ∀ x ∈ v.toList, isWordChar x = true := List.all_eq_true.mp hvw
    cases op with
    | EQ =>
      rw [show transpileWhere (.comparison .EQ f v) = some (f ++ ":=" ++ v) from rfl]
        at hs
      rw [show transpileRw (.comparison .EQ f v) = some (f ++ ":=" ++ v) from rfl]
        at hs2
      obtain rfl := Option.some.inj hs
      obtain rfl := Option.some.inj hs2
      exact scan_atom_str f ":=" v rest hf hfw' (by decide) (by decide) hvw' hrest
        (notPrefix_colon_ne '=' _ (by decide))
    | GT =>
      rw [show transpileWhere (.comparison .GT f v) = some (f ++ ":>" ++ v) from rfl]
        at hs
      rw [show transpileRw (.comparison .GT f v) = some (f ++ ":>" ++ v) from rfl]
        at hs2
      obtain rfl := Option.some.inj hs
      obtain rfl := Option.some.inj hs2
      exact scan_atom_str f ":>" v rest hf hfw' (by decide) (by decide) hvw' hrest
        (notPrefix_colon_ne '>' _ (by decide))
    | LT =>
      rw [show transpileWhere (.comparison .LT f v) = some (f ++ ":<" ++ v) from rfl]
        at hs
      rw [show transpileRw (.comparison .LT f v) = some (f ++ ":<" ++ v) from rfl]
        at hs2
      obtain rfl := Option.some.inj hs
      obtain rfl := Option.some.inj hs2
      exact scan_atom_str f ":<" v rest hf hfw' (by decide) (by decide) hvw' hrest
        (notPrefix_colon_ne '<' _ (by decide))
    | GTE =>
      rw [show transpileWhere (.comparison .GTE f v) = some (f ++ ":>=" ++ v) from rfl]
        at hs
      rw [show transpileRw (.comparison .GTE f v) = some (f ++ ":>=" ++ v) from rfl]
        at hs2
      obtain rfl := Option.some.inj hs
      obtain rfl := Option.some.inj hs2
      exact scan_atom_str f ":>=" v rest hf hfw' (by decide) (by decide) hvw' hrest
        (notPrefix_colon_ne '>' _ (by decide))
    | LTE =>
      rw [show transpileWhere (.comparison .LTE f v) = some (f ++ ":<=" ++ v) from rfl]
        at hs
      rw [show transpileRw (.comparison .LTE f v) = some (f ++ ":<=" ++ v) from rfl]
        at hs2
      obtain rfl := Option.some.inj hs
      obtain rfl := Option.some.inj hs2
      exact scan_atom_str f ":<=" v rest hf hfw' (by decide) (by decide) hvw' hrest
        (notPrefix_colon_ne '<' _ (by decide))
    | NEQ =>
      rw [show transpileWhere (.comparison .NEQ f v) = some (f ++ ":!=" ++ v) from rfl]
        at hs
      rw [show transpileRw (.comparison .NEQ f v) = some (f ++ ":!=" ++ v) from rfl]
        at hs2
      obtain rfl := Option.some.inj hs
      obtain rfl := Option.some.inj hs2
      exact scan_atom_str f ":!=" v rest hf hfw' (by decide) (by decide) hvw' hrest
        (notPrefix_neq v.toList rest hvw' hrest (hneq rfl))
    | LIKE =>
      rw [show transpileWhere (.comparison .LIKE f v) = some (f ++ ":" ++ v) from rfl]
        at hs
      rw [show transpileRw (.comparison .LIKE f v) = some (f ++ ":" ++ v) from rfl]
        at hs2
      obtain rfl := Option.some.inj hs
      obtain rfl := Option.some.inj hs2
      exact scan_atom_str f ":" v rest hf hfw' (by decide) (by decide) hvw' hrest
        (notPrefix_like v.toList rest hvw' hrest)
  | logical op l r ihl ihr =>
    intro hwf s s2 hs hs2 rest hrest
    obtain ⟨hwl, hwr⟩ := hwf
    cases op with
    | AND =>
      rw [show transpileWhere (.logical .AND l r) =
        (match transpileWhere l, transpileWhere r with
          | some a, some b => some (a ++ " && " ++ b)
          | _, _ => none) from rfl] at hs
      rw [show transpileRw (.logical .AND l r) =
        (match transpileRw l, transpileRw r with
          | some a, some b => some (a ++ " && " ++ b)
          | _, _ => none) from rfl] at hs2
      cases hl : transpileWhere l with
      | none => rw [hl] at hs; exact absurd hs (by simp)
      | some a =>
        cases hr : transpileWhere r with
        | none => rw [hl, hr] at hs; exact absurd hs (by simp)
        | some b =>
          rw [hl, hr] at hs
          cases hl2 : transpileRw l with
          | none => rw [hl2] at hs2; exact absurd hs2 (by simp)
          | some a2 =>
            cases hr2 : transpileRw r with
            | none => rw [hl2, hr2] at hs2; exact absurd hs2 (by simp)
            | some b2 =>
              rw [hl2, hr2] at hs2
              obtain rfl := Option.some.inj hs
              obtain rfl := Option.some.inj hs2
              have h1 : (a ++ " && " ++ b).toList ++ rest =
                  a.toList ++ ((" && ".toList) ++ (b.toList ++ rest)) := by
                rw [toList_append, toList_append]
                simp [List.append_assoc]
              rw [h1]
              rw [ihl hwl a a2 hl hl2 ((" && ".toList) ++ (b.toList ++ rest))
                (Or.inr ⟨("&& ".toList) ++ (b.toList ++ rest), rfl⟩)]
              rw [rewriteScan_nonword_all (" && ".toList) _ (by decide)]
              rw [ihr hwr b b2 hr hr2 rest hrest]
              rw [toList_append, toList_append]
              simp [List.append_assoc]
    | OR =>
      rw [show transpileWhere (.logical .OR l r) =
        (match transpileWhere l, transpileWhere r with
          | some a, some b => some (a ++ " || " ++ b)
          | _, _ => none) from rfl] at hs
      rw [show transpileRw (.logical .OR l r) =
        (match transpileRw l, transpileRw r with
          | some a, some b => some (a ++ " || " ++ b)
          | _, _ => none) from rfl] at hs2
      cases hl : transpileWhere l with
      | none => rw [hl] at hs; exact absurd hs (by simp)
      | some a =>
        cases hr : transpileWhere r with
        | none => rw [hl, hr] at hs; exact absurd hs (by simp)
        | some b =>
          rw [hl, hr] at hs
          cases hl2 : transpileRw l with
          | none => rw [hl2] at hs2; exact absurd hs2 (by simp)
          | some a2 =>
            cases hr2 : transpileRw r with
            | none => rw [hl2, hr2] at hs2; exact absurd hs2 (by simp)
            | some b2 =>
              rw [hl2, hr2] at hs2
              obtain rfl := Option.some.inj hs
              obtain rfl := Option.some.inj hs2
              have h1 : (a ++ " || " ++ b).toList ++ rest =
                  a.toList ++ ((" || ".toList) ++ (b.toList ++ rest)) := by
                rw [toList_append, toList_append]
                simp [List.append_assoc]
              rw [h1]
              rw [ihl hwl a a2 hl hl2 ((" || ".toList) ++ (b.toList ++ rest))
                (Or.inr ⟨("|| ".toList) ++ (b.toList ++ rest), rfl⟩)]
              rw [rewriteScan_nonword_all (" || ".toList) _ (by decide)]
              rw [ihr hwr b b2 hr hr2 rest hrest]
              rw [toList_append, toList_append]
              simp [List.append_assoc]
  | nullCheck f neg =>
    intro hwf s s2 hs hs2 rest hrest
    obtain ⟨hf, hfw⟩ := hwf
    have hfw' : ∀ x ∈ f.toList, isWordChar x = true := List.all_eq_true.mp hfw
    have hfne : f.toList ≠ [] := fun h0 => hf (toList_eq_nil f h0)
    cases neg with
    | false =>
      rw [show transpileWhere (.nullCheck f false) = some (f ++ ":=null") from rfl] at hs
      rw [show transpileRw (.nullCheck f false) = some (f ++ ":=null") from rfl] at hs2
      obtain rfl := Option.some.inj hs
      obtain rfl := Option.some.inj hs2
      have hsplit : f ++ ":=null" = f ++ ":=" ++ "null" := by
        rw [String.append_assoc]
        rfl
      rw [hsplit]
      exact scan_atom_str f ":=" "null" rest hf hfw' (by decide) (by decide)
        (by decide) hrest (notPrefix_colon_ne '=' _ (by decide))
    | true =>
      rw [show transpileWhere (.nullCheck f true) = some (f ++ ":!=null") from rfl] at hs
      rw [show transpileRw (.nullCheck f true) = some (f ++ ":>= -2000000000") from rfl]
        at hs2
      obtain rfl := Option.some.inj hs
      obtain rfl := Option.some.inj hs2
      have h1 : (f ++ ":!=null").toList ++ rest =
          f.toList ++ ((":!=null".toList) ++ rest) := by
        rw [toList_append]
        simp [List.append_assoc]
      rw [h1]
      have hbrem : ((":!=null".toList) ++ rest).takeWhile isWordChar = [] ∧
          ((":!=null".toList) ++ rest).dropWhile isWordChar = (":!=null".toList) ++ rest := by
        apply boundary_take_drop
        right
        exact ⟨':', ("!=null".toList) ++ rest, rfl, by decide⟩
      rw [rewriteScan_run f.toList _ hfne hfw' hbrem,
        if_pos (isPrefixOf_append_self (":!=null".toList) rest)]
      have hdrop : ((":!=null".toList) ++ rest).drop 7 = rest := by
        have h7 : (":!=null".toList).length = 7 := rfl
        rw [← h7, List.drop_left]
      rw [hdrop, toList_append]
      simp [List.append_assoc]
  | notOther inner ih =>
    intro _ s s2 hs _ _ _
    exact absurd hs (by simp [transpileWhere])
  | unsupported =>
    intro _ s s2 hs _ _ _
    exact absurd hs (by simp [transpileWhere])

/-- The Signature-A filter rewrite on a well-formed translated filter
equals the translation with every IS NOT NULL atom replaced by the
numeric-range heuristic: every `field:!=null` fragment is rewritten to
`field:>= -2000000000` and nothing else changes. -/
theorem rewriteFilter_transpile : ∀ (e : Expression), wellFormedExpr e →
    ∀ (s s2 : String), transpileWhere e = some s → transpileRw e = some s2 →
    rewriteFilter s = s2 := by
  intro e hwf s s2 hs hs2
  have h := rewriteScan_transpile e hwf s s2 hs hs2 [] (Or.inl rfl)
  rw [List.append_nil, rewriteScan_nil, List.append_nil] at h
  show (rewriteScan s.toList).asString = s2
  rw [h]
  rfl

/-- C1: a first failure carrying the numeric-mismatch indicator over a
filter with a `field:!=null` fragment triggers exactly one retry whose
request keeps collection, text query, projection, sort, page and
per-page unchanged, only the filter being rewritten; and the rewrite
replaces every `field:!=null` fragment by `field:>= -2000000000` (on a
well-formed translated filter it coincides with re-translating the tree
with every IS NOT NULL atom emitted as the range heuristic). -/
theorem executeQuery_sigA_retry :
    ∀ (svc : QuerySpec → Except String SearchResponse) (spec : QuerySpec)
      (incf : List String) (st : Bool) (msg : String) (a f b : String),
      svc spec = .error msg →
      containsSub "Not an int32" msg = true →
      spec.filterBy = some (a ++ (f ++ ":!=null") ++ b) →
      (∃ spec2,
        (executeQuery svc spec incf st).2 = [spec, spec2] ∧
        spec2.collection = spec.collection ∧
        spec2.q = spec.q ∧
        spec2.includeFields = spec.includeFields ∧
        spec2.sortBy = spec.sortBy ∧
        spec2.page = spec.page ∧
        spec2.perPage = spec.perPage ∧
        spec2.filterBy = some (rewriteFilter (a ++ (f ++ ":!=null") ++ b))) ∧
      (∀ (e : Expression) (s s2 : String), wellFormedExpr e →
        transpileWhere e = some s → transpileRw e = some s2 →
        rewriteFilter s = s2) := by
  intro svc spec incf st msg a f b h1 hN hfb
  have hgd : spec.filterBy.getD "" = a ++ (f ++ ":!=null") ++ b := by
    rw [hfb]; rfl
  have hA : sigA msg (spec.filterBy.getD "") = true := by
    rw [hgd]
    simp [sigA, hN, containsSub_notNull_frag]
  have h := executeQuery_sigA_cases svc spec incf st msg h1 hA
  rw [hgd] at h
  exact ⟨⟨_, h.1, rfl, rfl, rfl, rfl, rfl, rfl, rfl⟩,
    fun e s s2 hwf hs hs2 => rewriteFilter_transpile e hwf s s2 hs hs2⟩

/-- Spot check for `executeQuery_sigA_retry` on the filter
`age:!=null`. -/
theorem executeQuery_sigA_retry_spot :
    (∃ spec2,
      (executeQuery svcAlwaysMismatch specNotNull [] true).2 = [specNotNull, spec2] ∧
      spec2.collection = specNotNull.collection ∧
      spec2.q = specNotNull.q ∧
      spec2.includeFields = specNotNull.includeFields ∧
      spec2.sortBy = specNotNull.sortBy ∧
      spec2.page = specNotNull.page ∧
      spec2.perPage = specNotNull.perPage ∧
      spec2.filterBy = some (rewriteFilter ("" ++ ("age" ++ ":!=null") ++ ""))) ∧
    (∀ (e : Expression) (s s2 : String), wellFormedExpr e →
      transpileWhere e = some s → transpileRw e = some s2 →
      rewriteFilter s = s2) :=
  executeQuery_sigA_retry svcAlwaysMismatch specNotNull [] true
    "Value stored is Not an int32" "" "age" "" rfl (by decide) rfl

end TsCli
